import Mathlib

/-!
Shallow embedding of the fillForge PDF editor core: draft geometry,
export composition, form-field updates, signing entry points and the
text-wrapping / colour-parsing primitives, together with theorems
settling the specification claims C1 - C10.

JavaScript numbers are modelled as `ℚ` (the claims are about exact
arithmetic relations; rounding tolerances in the spec are subsumed by
exact equality), byte strings as `List Nat`, possibly-`undefined`
values as `Option`, and `NaN`-producing conversions as `Option ℚ`.
External collaborators (pdf-lib mutation primitives, the base64 codec
of the runtime, the signer modules) are abstracted as function
parameters gathered in environment structures; every piece of control
flow belonging to the repository itself is translated literally.
-/

namespace FillForge

/-- Byte strings (`Uint8Array` / `Buffer`) as lists of byte values. -/
abbrev Bytes := List Nat

/-- `hasPdfHeader` (App.jsx): at least four bytes and the first four
spell `%PDF` (codes 37, 80, 68, 70). -/
def hasPdfHeader (bytes : Bytes) : Bool :=
  match bytes with
  | b0 :: b1 :: b2 :: b3 :: _ => b0 == 37 && b1 == 80 && b2 == 68 && b3 == 70
  | _ => false

/-- `clamp` (App.jsx): `Math.min(Math.max(value, min), max)`. -/
def clampQ (value lo hi : ℚ) : ℚ := min (max value lo) hi

/-- The four draft kinds of the `TOOL` enumeration that can appear in
the draft list (`pan` never produces a draft). -/
inductive DraftType where
  | text
  | textField
  | checkbox
  | signature
deriving DecidableEq, Repr

/-- A pending visual edit (the objects pushed onto the `drafts` state
in App.jsx).  Geometry is screen-space at the current render scale. -/
@[ext]
structure Draft where
  id : String
  dtype : DraftType
  pageIndex : Nat
  x : ℚ
  y : ℚ
  width : ℚ
  height : ℚ
  text : String := ""
  size : ℚ := 16
  fontFamily : String := "helvetica"
  fontWeight : String := "normal"
  fontStyle : String := "normal"
  underline : Bool := false
  color : Option String := none
  fieldName : String := ""
  dataUrl : Option String := none
deriving DecidableEq, Repr

/-- A page's render-time viewport: pixel dimensions at the current
scale plus the pdf.js `convertToPdfPoint` transform (external). -/
structure Viewport where
  width : ℚ
  height : ℚ
  convertToPdfPoint : ℚ → ℚ → ℚ × ℚ

/-- A PDF-space rectangle as produced by `resolveDraftRect`. -/
structure PdfRect where
  pageIndex : Nat
  x : ℚ
  y : ℚ
  width : ℚ
  height : ℚ
deriving Repr

/-- `resolveDraftRect` (handleExport, App.jsx): maps the draft's two
screen-space corners through the page viewport and renormalises; `none`
when no viewport was captured for the draft's page. -/
def resolveDraftRect (viewports : Nat → Option Viewport) (draft : Draft) :
    Option PdfRect :=
  match viewports draft.pageIndex with
  | none => none
  | some viewport =>
      let p1 := viewport.convertToPdfPoint draft.x draft.y
      let p2 := viewport.convertToPdfPoint (draft.x + draft.width) (draft.y + draft.height)
      some
        { pageIndex := draft.pageIndex
          x := min p1.1 p2.1
          y := min p1.2 p2.2
          width := |p2.1 - p1.1|
          height := |p2.2 - p1.2| }

/-- `clampDraft` (App.jsx): caps the rectangle's size at the viewport
dimensions and clamps its origin so the rectangle stays inside; the
draft is returned unchanged when its page has no captured viewport. -/
def clampDraft (viewports : Nat → Option Viewport) (next : Draft) : Draft :=
  match viewports next.pageIndex with
  | none => next
  | some viewport =>
      let width := min next.width viewport.width
      let height := min next.height viewport.height
      let maxX := max 0 (viewport.width - width)
      let maxY := max 0 (viewport.height - height)
      { next with
          width := width
          height := height
          x := clampQ next.x 0 maxX
          y := clampQ next.y 0 maxY }

/-- `placementDefaults` (App.jsx) plus the fallback
`\x7b width: 140, height: 40 \x7d` used by `handleCanvasClick`. -/
def placementDefaults : DraftType → ℚ × ℚ
  | DraftType.textField => (220, 36)
  | DraftType.checkbox => (28, 28)
  | DraftType.signature => (200, 80)
  | DraftType.text => (140, 40)

/-- The rectangle computation of `handleCanvasClick` (App.jsx): the
draft is centred on the click and clamped to
`[0, viewport.width - width] x [0, viewport.height - height]`. -/
def placeDefaultRect (viewport : Viewport) (tool : DraftType)
    (clickX clickY : ℚ) : ℚ × ℚ × ℚ × ℚ :=
  let defaults := placementDefaults tool
  let width := defaults.1
  let height := defaults.2
  let maxX := viewport.width - width
  let maxY := viewport.height - height
  (clampQ (clickX - width / 2) 0 maxX, clampQ (clickY - height / 2) 0 maxY,
    width, height)

/-- Click placement (`handleCanvasClick`, App.jsx): the handler returns
early for the pan, text and text-field tools (those drafts are created
by drag gestures instead), and for the signature tool when no signature
image has been captured; only the checkbox and signature tools reach
the rectangle computation. -/
def clickPlacementRect (viewport : Viewport) (tool : DraftType)
    (signatureDataUrl : Option String) (clickX clickY : ℚ) :
    Option (ℚ × ℚ × ℚ × ℚ) :=
  match tool with
  | DraftType.text => none
  | DraftType.textField => none
  | DraftType.checkbox =>
      some (placeDefaultRect viewport DraftType.checkbox clickX clickY)
  | DraftType.signature =>
      match signatureDataUrl with
      | none => none
      | some u =>
          if u = "" then none
          else some (placeDefaultRect viewport DraftType.signature clickX clickY)

/-- Drag-box geometry shared by `handleTextFieldPointerMove` and
`handleTextPointerMove` (App.jsx): the pointer position is clamped into
the viewport and the box spans from the pointer-down point to it. -/
def dragBoxRect (viewport : Viewport) (startX startY pointerX pointerY : ℚ) :
    ℚ × ℚ × ℚ × ℚ :=
  let x := clampQ pointerX 0 viewport.width
  let y := clampQ pointerY 0 viewport.height
  (min startX x, min startY y, |x - startX|, |y - startY|)

/-- Free-hand text creation geometry (`handleTextPointerUp`, App.jsx):
minimum size 140 x 32 is enforced, then the origin is clamped into
`[0, max (viewportWidth - width) 0] x [0, max (viewportHeight - height) 0]`
(`viewport = none` degenerates to `maxX = maxY = 0`). -/
def textCreateRect (viewport : Option Viewport) (boxX boxY boxW boxH : ℚ) :
    ℚ × ℚ × ℚ × ℚ :=
  let width := max boxW 140
  let height := max boxH 32
  let maxX := match viewport with
    | some v => max (v.width - width) 0
    | none => 0
  let maxY := match viewport with
    | some v => max (v.height - height) 0
    | none => 0
  (clampQ boxX 0 maxX, clampQ boxY 0 maxY, width, height)

/-- The rescale effect (App.jsx): when the render scale changes and
drafts exist, every draft's geometry is multiplied by
`scale / lastScale`. -/
def rescaleDrafts (lastScale scale : ℚ) (drafts : List Draft) : List Draft :=
  if drafts.length ≠ 0 ∧ scale ≠ lastScale then
    drafts.map fun draft =>
      { draft with
          x := draft.x * (scale / lastScale)
          y := draft.y * (scale / lastScale)
          width := draft.width * (scale / lastScale)
          height := draft.height * (scale / lastScale) }
  else drafts

/-! ### Colour parsing (`hexToRgb`, pdfUtils.js) -/

/-- A pdf-lib colour triple; a channel is `none` when the JavaScript
computation produced `NaN`. -/
structure JsColor where
  r : Option ℚ
  g : Option ℚ
  b : Option ℚ
deriving DecidableEq, Repr

/-- The fallback near-black `rgb(0.08, 0.1, 0.14)`. -/
def defaultInk : JsColor :=
  { r := some (8 / 100), g := some (1 / 10), b := some (14 / 100) }

/-- `'...'.replace('#', '')`: JavaScript string `replace` with a string
pattern removes only the first occurrence. -/
def removeFirstHash : List Char → List Char
  | [] => []
  | c :: cs => if c = '#' then cs else c :: removeFirstHash cs

/-- Value of a hexadecimal digit character. -/
def hexDigitVal (c : Char) : Option Nat :=
  if 48 ≤ c.toNat ∧ c.toNat ≤ 57 then some (c.toNat - 48)
  else if 97 ≤ c.toNat ∧ c.toNat ≤ 102 then some (c.toNat - 87)
  else if 65 ≤ c.toNat ∧ c.toNat ≤ 70 then some (c.toNat - 55)
  else none

/-- Accumulate the longest hexadecimal-digit run. -/
def hexRun : List Char → Nat → Nat
  | [], acc => acc
  | c :: cs, acc =>
      match hexDigitVal c with
      | some v => hexRun cs (acc * 16 + v)
      | none => acc

/-- JavaScript whitespace characters recognised by `parseInt` / `\s`
(space, tab, line feed, carriage return, vertical tab, form feed). -/
def isJsWs (c : Char) : Bool :=
  c.toNat = 32 ∨ c.toNat = 9 ∨ c.toNat = 10 ∨ c.toNat = 13 ∨
    c.toNat = 11 ∨ c.toNat = 12

/-- `parseInt(s, 16)`: skip leading whitespace, optional sign, optional
`0x`/`0X` prefix, then the longest hexadecimal-digit run; `none` models
`NaN` (no digits at all). -/
def jsParseInt16 (s : String) : Option Int :=
  let cs := s.data.dropWhile isJsWs
  let neg : Bool := cs.head? = some '-'
  let afterSign := if cs.head? = some '-' ∨ cs.head? = some '+' then cs.tail else cs
  let body :=
    if afterSign.take 2 = ['0', 'x'] ∨ afterSign.take 2 = ['0', 'X'] then
      afterSign.drop 2
    else afterSign
  match body with
  | c :: _ =>
      match hexDigitVal c with
      | some _ => some ((if neg then -1 else 1) * (hexRun body 0 : Int))
      | none => none
  | [] => none

/-- `hexToRgb` (pdfUtils.js): falsy or non-6-character (after removing
one `#`) input falls back to `defaultInk`; otherwise each 2-character
slice is parsed with `parseInt(-, 16)` and divided by 255. -/
def hexToRgb (hex : Option String) : JsColor :=
  match hex with
  | none => defaultInk
  | some h =>
      if h = "" then defaultInk
      else
        let clean := removeFirstHash h.data
        if clean.length ≠ 6 then defaultInk
        else
          { r := (jsParseInt16 (String.mk (clean.take 2))).map fun v => (v : ℚ) / 255
            g := (jsParseInt16 (String.mk ((clean.drop 2).take 2))).map fun v => (v : ℚ) / 255
            b := (jsParseInt16 (String.mk ((clean.drop 4).take 2))).map fun v => (v : ℚ) / 255 }

/-! ### The `pdf:signWithP12` IPC handler (main.cjs) -/

def MAX_PDF_BYTES : Nat := 50 * 1024 * 1024

def MAX_CERT_BYTES : Nat := 5 * 1024 * 1024

/-- `decodeBase64Payload` (main.cjs): missing data, an estimated or
actual decoded size above `maxBytes` are rejected; otherwise the
runtime's lenient base64 decoding (`Buffer.from(data, 'base64')`,
abstracted as `b64decode`) is applied. -/
def decodeBase64Payload (b64decode : String → Bytes) (data : Option String)
    (maxBytes : Nat) (label : String) : Except String Bytes :=
  match data with
  | none => Except.error (label ++ " data is missing.")
  | some s =>
      if s = "" then Except.error (label ++ " data is missing.")
      else if maxBytes < s.length * 3 / 4 then Except.error (label ++ " is too large.")
      else
        let buffer := b64decode s
        if maxBytes < buffer.length then Except.error (label ++ " is too large.")
        else Except.ok buffer

/-- `Number(pageIndex) || 0`: a missing or non-numeric page index
(`NaN`) becomes 0. -/
def jsNumberOr0 (n : Option Int) : Int := n.getD 0

/-- `safePageIndex` (pdf:signWithP12 handler, main.cjs):
`Math.min(Math.max(Number(pageIndex) || 0, 0), pages.length - 1)`. -/
def safePageIndex (pageIndex : Option Int) (pageCount : Nat) : Int :=
  min (max (jsNumberOr0 pageIndex) 0) ((pageCount : Int) - 1)

/-- `rect?.x || 0` and friends. -/
def qOr0 (v : Option ℚ) : ℚ := v.getD 0

/-- `x || d` on strings: empty / missing falls back to the default. -/
def strOrDefault (v : Option String) (d : String) : String :=
  match v with
  | none => d
  | some s => if s = "" then d else s

/-- The `rect` field of the signing payload (the renderer always sends
the object form `\x7b x, y, width, height \x7d`). -/
structure RectPayload where
  x : Option ℚ := none
  y : Option ℚ := none
  width : Option ℚ := none
  height : Option ℚ := none

/-- The IPC payload of `pdf:signWithP12`. -/
structure SignPayload where
  pdfBase64 : Option String := none
  certBase64 : Option String := none
  password : Option String := none
  name : Option String := none
  reason : Option String := none
  location : Option String := none
  contactInfo : Option String := none
  pageIndex : Option Int := none
  rect : Option RectPayload := none

/-- Arguments handed to `pdflibAddPlaceholder`. -/
structure PlaceholderArgs where
  pageIndex : Int
  reason : String
  contactInfo : String
  name : String
  location : String
  signatureLength : Nat
  widgetRect : List ℚ

/-- External collaborators of the signing handler: the runtime base64
decoder, the dynamically imported signer modules, and pdf-lib. -/
structure SignEnv where
  b64decode : String → Bytes
  modulesAvailable : Bool
  loadPageCount : Bytes → Except String Nat
  placeholderSave : Bytes → PlaceholderArgs → Except String Bytes
  signerSign : Bytes → Bytes → String → Except String Bytes

/-- Result of the handler plus whether control ever reached the
placeholder-reservation step. -/
structure SignOutcome where
  result : Except String Bytes
  placeholderInvoked : Bool

/-- The `pdf:signWithP12` handler (main.cjs, lines 309-378): decode the
PDF and certificate payloads, resolve the signer modules, clamp the
page index, reserve the placeholder and sign.  Thrown errors are
returned as `\x7b error \x7d` objects by the surrounding `catch`;
`placeholderInvoked` records whether `pdflibAddPlaceholder` ran. -/
def signWithP12 (env : SignEnv) (payload : SignPayload) : SignOutcome :=
  match decodeBase64Payload env.b64decode payload.pdfBase64 MAX_PDF_BYTES "PDF" with
  | Except.error e => ⟨Except.error e, false⟩
  | Except.ok pdfBuffer =>
    match decodeBase64Payload env.b64decode payload.certBase64 MAX_CERT_BYTES "Certificate" with
    | Except.error e => ⟨Except.error e, false⟩
    | Except.ok certBuffer =>
      if env.modulesAvailable = false then
        ⟨Except.error "Signing modules not available.", false⟩
      else
        match env.loadPageCount pdfBuffer with
        | Except.error e => ⟨Except.error e, false⟩
        | Except.ok pageCount =>
          let idx := safePageIndex payload.pageIndex pageCount
          let rx := qOr0 (payload.rect.bind RectPayload.x)
          let ry := qOr0 (payload.rect.bind RectPayload.y)
          let rw := qOr0 (payload.rect.bind RectPayload.width)
          let rh := qOr0 (payload.rect.bind RectPayload.height)
          let args : PlaceholderArgs :=
            { pageIndex := idx
              reason := strOrDefault payload.reason "Signed with FillForge"
              contactInfo := strOrDefault payload.contactInfo ""
              name := strOrDefault payload.name "FillForge User"
              location := strOrDefault payload.location ""
              signatureLength := 8192
              widgetRect := [rx, ry, rx + rw, ry + rh] }
          match env.placeholderSave pdfBuffer args with
          | Except.error e => ⟨Except.error e, true⟩
          | Except.ok withPlaceholder =>
            match env.signerSign withPlaceholder certBuffer
                (strOrDefault payload.password "") with
            | Except.error e => ⟨Except.error e, true⟩
            | Except.ok signedPdf => ⟨Except.ok signedPdf, true⟩

/-! ### Form-field bridge (`setFormFieldValue`, pdfUtils.js) -/

/-- The field kinds distinguished by `describeField` /
`setFormFieldValue` via pdf-lib `instanceof` checks. -/
inductive FieldKind where
  | text
  | checkbox
  | dropdown
  | optionList
  | radio
  | unknown
deriving DecidableEq, Repr

/-- An interactive form field of the loaded document, at the level of
observable pdf-lib state. -/
structure FormField where
  name : String
  kind : FieldKind
  textValue : String := ""
  checked : Bool := false
  selected : Option String := none
  options : List String := []
deriving DecidableEq, Repr

/-- Values the renderer passes to `setFormFieldValue` (strings from
text inputs, booleans from checkbox commits, possibly `undefined`). -/
inductive JsValue where
  | str (s : String)
  | boolean (b : Bool)
  | undefined
deriving DecidableEq, Repr

/-- JavaScript truthiness of such a value. -/
def jsTruthy : JsValue → Bool
  | JsValue.str s => s ≠ ""
  | JsValue.boolean b => b
  | JsValue.undefined => false

/-- `String(value ?? '')`. -/
def jsValueToString : JsValue → String
  | JsValue.str s => s
  | JsValue.boolean b => if b then "true" else "false"
  | JsValue.undefined => ""

/-- The kind dispatch of `setFormFieldValue` on the located field:
text replaces the string, checkbox checks/unchecks by truthiness,
dropdown / option list / radio select the value only when truthy,
anything else is untouched. -/
def applyFieldValue (field : FormField) (value : JsValue) : FormField :=
  match field.kind with
  | FieldKind.text => { field with textValue := jsValueToString value }
  | FieldKind.checkbox => { field with checked := jsTruthy value }
  | FieldKind.dropdown =>
      if jsTruthy value then { field with selected := some (jsValueToString value) }
      else field
  | FieldKind.optionList =>
      if jsTruthy value then { field with selected := some (jsValueToString value) }
      else field
  | FieldKind.radio =>
      if jsTruthy value then { field with selected := some (jsValueToString value) }
      else field
  | FieldKind.unknown => field

/-- Update the (unique) field of the given name. -/
def updateNamedField (fieldName : String) (value : JsValue) :
    List FormField → List FormField
  | [] => []
  | f :: fs =>
      if f.name = fieldName then applyFieldValue f value :: fs
      else f :: updateNamedField fieldName value fs

/-- `setFormFieldValue` (pdfUtils.js): `form.getField(name)` throws for
an unknown name, which the `catch` turns into returning the input
unchanged; otherwise the value write is dispatched on the field's kind
and the document saved. -/
def setFormFieldValue (doc : List FormField) (fieldName : String)
    (value : JsValue) : List FormField :=
  match doc.find? (fun f => f.name = fieldName) with
  | none => doc
  | some _ => updateNamedField fieldName value doc

/-! ### Export composition (`handleExport`, App.jsx) -/

/-- `ensurePdf` (handleExport, App.jsx): throws
`Invalid PDF data after <context>.` when the bytes fail the header
check. -/
def ensurePdf (bytes : Bytes) (context : String) : Except String Unit :=
  if hasPdfHeader bytes then Except.ok ()
  else Except.error ("Invalid PDF data after " ++ context ++ ".")

/-- External collaborators of the export flow: the pdf-lib backed
compositor primitives of pdfUtils.js (each consumes the current bytes,
the draft and its resolved PDF-space rectangle and produces new bytes),
the desktop signing bridge, the save-path dialog and the final write. -/
structure ExportEnv where
  viewports : Nat → Option Viewport
  includeVisualSignature : Bool
  addText : Bytes → Draft → PdfRect → Bytes
  addTextField : Bytes → Draft → PdfRect → Bytes
  addCheckBox : Bytes → Draft → PdfRect → Bytes
  addSignature : Bytes → Draft → PdfRect → Bytes
  signApi : Option (Bytes → PdfRect → Except String Bytes)
  saveDialog : Option (Except Unit (Option String))
  writeOk : Bool

/-- One iteration of the export loop: drafts whose page has no captured
viewport are skipped, signature drafts are skipped when the visual
signature is excluded or the draft has no image payload, and after each
mutation `ensurePdf` validates the produced bytes. -/
def applyDraftStep (env : ExportEnv) (bytes : Bytes) (draft : Draft) :
    Except String Bytes :=
  match resolveDraftRect env.viewports draft with
  | none => Except.ok bytes
  | some rect =>
    match draft.dtype with
    | DraftType.text =>
        let next := env.addText bytes draft rect
        match ensurePdf next "adding text" with
        | Except.ok _ => Except.ok next
        | Except.error e => Except.error e
    | DraftType.textField =>
        let next := env.addTextField bytes draft rect
        match ensurePdf next "adding text field" with
        | Except.ok _ => Except.ok next
        | Except.error e => Except.error e
    | DraftType.checkbox =>
        let next := env.addCheckBox bytes draft rect
        match ensurePdf next "adding checkbox" with
        | Except.ok _ => Except.ok next
        | Except.error e => Except.error e
    | DraftType.signature =>
        if env.includeVisualSignature = false then Except.ok bytes
        else
          match draft.dataUrl with
          | none => Except.ok bytes
          | some u =>
              if u = "" then Except.ok bytes
              else
                let next := env.addSignature bytes draft rect
                match ensurePdf next "adding signature" with
                | Except.ok _ => Except.ok next
                | Except.error e => Except.error e

/-- The step-context string passed to `ensurePdf` for each draft
kind. -/
def stepContextName : DraftType → String
  | DraftType.text => "adding text"
  | DraftType.textField => "adding text field"
  | DraftType.checkbox => "adding checkbox"
  | DraftType.signature => "adding signature"

/-- The `for (const draft of drafts)` loop of `handleExport`: each
draft is applied to the output of the previous step; the first failing
header check aborts the whole loop. -/
def exportDrafts (env : ExportEnv) : List Draft → Bytes → Except String Bytes
  | [], bytes => Except.ok bytes
  | draft :: rest, bytes =>
      match applyDraftStep env bytes draft with
      | Except.error e => Except.error e
      | Except.ok next => exportDrafts env rest next

/-- Outcome of the conditional digital-signing phase of
`handleExport`. -/
inductive SignPhase where
  | abort (signError : String)
  | proceed (bytes : Bytes) (didSign : Bool)

/-- The signing phase of `handleExport`: the most recently placed
signature draft together with a loaded certificate routes the composed
bytes through the desktop signing bridge; a missing bridge, a missing
viewport for the draft's page, a bridge error, or a failing header
check on the signed bytes each abort the export. -/
def signPhase (env : ExportEnv) (certificateData : String)
    (drafts : List Draft) (composed : Bytes) : SignPhase :=
  let signatureDrafts := drafts.filter fun d => d.dtype = DraftType.signature
  match signatureDrafts.getLast? with
  | none => SignPhase.proceed composed false
  | some signatureDraft =>
      if certificateData = "" then SignPhase.proceed composed false
      else
        match env.signApi with
        | none => SignPhase.abort "Digital signing is only available in the desktop app."
        | some signFn =>
            match resolveDraftRect env.viewports signatureDraft with
            | none => SignPhase.abort ""
            | some rect =>
                match signFn composed rect with
                | Except.error e => SignPhase.abort e
                | Except.ok data =>
                    match ensurePdf data "signing" with
                    | Except.ok _ => SignPhase.proceed data true
                    | Except.error _ =>
                        SignPhase.abort "Export failed. Please try again or reopen the PDF."

/-- The renderer state touched by `handleExport`. -/
structure AppState where
  pdfBytes : Option Bytes
  drafts : List Draft
  signError : String
  isSigned : Bool
deriving Repr

/-- The final state of an export attempt together with the bytes that
were handed to the save collaborator (when the write phase ran). -/
structure ExportResult where
  state : AppState
  written : Option Bytes

/-- `handleExport` (App.jsx, lines 407-600): validate the in-memory
bytes, ask for a destination, replay each draft with per-step header
validation, optionally sign, then write.  The draft list is cleared
and the document bytes replaced only after every step including the
write has succeeded; every failure path leaves `pdfBytes` and `drafts`
untouched. -/
def handleExport (env : ExportEnv) (certificateData : String)
    (st : AppState) : ExportResult :=
  match st.pdfBytes with
  | none => ⟨st, none⟩
  | some raw =>
    let st0 := { st with signError := "" }
    if hasPdfHeader raw = false then
      ⟨{ st0 with signError := "PDF data is invalid. Please reopen the document." }, none⟩
    else
      match env.saveDialog with
      | some (Except.error _) =>
          ⟨{ st0 with signError := "" }, none⟩
      | some (Except.ok none) => ⟨st0, none⟩
      | _ =>
        match exportDrafts env st.drafts raw with
        | Except.error _ =>
            ⟨{ st0 with signError := "Export failed. Please try again or reopen the PDF." }, none⟩
        | Except.ok composed =>
          match signPhase env certificateData st.drafts composed with
          | SignPhase.abort msg => ⟨{ st0 with signError := msg }, none⟩
          | SignPhase.proceed nextBytes didSign =>
              if env.writeOk = false then
                ⟨{ st0 with signError := "Failed to write the PDF. Please try again." },
                  some nextBytes⟩
              else
                ⟨{ st0 with
                    pdfBytes := some nextBytes
                    drafts := []
                    isSigned := if didSign then true else st0.isSigned },
                  some nextBytes⟩

/-! ### Signature image embedding (`addSignatureToPdf`, pdfUtils.js) -/

/-- Base64 alphabet value of a character. -/
def b64Val (c : Char) : Option Nat :=
  if 'A' ≤ c ∧ c ≤ 'Z' then some (c.toNat - 65)
  else if 'a' ≤ c ∧ c ≤ 'z' then some (c.toNat - 97 + 26)
  else if '0' ≤ c ∧ c ≤ '9' then some (c.toNat - 48 + 52)
  else if c = '+' then some 62
  else if c = '/' then some 63
  else none

/-- Map every character to its base64 value, failing on the first
invalid character. -/
def b64Vals : List Char → Option (List Nat)
  | [] => some []
  | c :: cs =>
      match b64Val c with
      | none => none
      | some v =>
          match b64Vals cs with
          | none => none
          | some vs => some (v :: vs)

/-- Reassemble 6-bit groups into bytes (a trailing group of two or
three characters yields one or two bytes). -/
def b64Bytes : List Nat → Bytes
  | a :: b :: c :: d :: rest =>
      (a * 4 + b / 16) :: ((b % 16) * 16 + c / 4) :: ((c % 4) * 64 + d) :: b64Bytes rest
  | [a, b] => [a * 4 + b / 16]
  | [a, b, c] => [a * 4 + b / 16, (b % 16) * 16 + c / 4]
  | _ => []

/-- Strip at most two trailing `=` padding characters. -/
def stripB64Pad (cs : List Char) : List Char :=
  match cs.reverse with
  | '=' :: '=' :: rest => rest.reverse
  | '=' :: rest => rest.reverse
  | _ => cs

/-- The browser `atob` (forgiving-base64 decode): ASCII whitespace is
removed, padding stripped when the length is a multiple of four, then
a length congruent to 1 mod 4 or any character outside the base64
alphabet raises `InvalidCharacterError`. -/
def atobDecode (s : String) : Except String Bytes :=
  let cs := s.data.filter fun c => isJsWs c = false
  let cs := if cs.length % 4 = 0 then stripB64Pad cs else cs
  if cs.length % 4 = 1 then Except.error "InvalidCharacterError"
  else
    match b64Vals cs with
    | none => Except.error "InvalidCharacterError"
    | some vs => Except.ok (b64Bytes vs)

/-- `dataUrl.split(',')`: split at every comma, keeping empty
segments. -/
def splitCommaAux : List Char → List Char → List String
  | [], acc => [String.mk acc.reverse]
  | c :: cs, acc =>
      if c = ',' then String.mk acc.reverse :: splitCommaAux cs []
      else splitCommaAux cs (c :: acc)

/-- Split a string at commas. -/
def splitComma (s : String) : List String := splitCommaAux s.data []

/-- `dataUrlToBytes` (pdfUtils.js): falsy input yields `null`;
otherwise the part after the first comma is base64-decoded (when no
comma exists, `split(',')[1]` is `undefined` and `atob` receives the
string `"undefined"`). -/
def dataUrlToBytes (dataUrl : Option String) : Except String (Option Bytes) :=
  match dataUrl with
  | none => Except.ok none
  | some s =>
      if s = "" then Except.ok none
      else
        match (splitComma s).get? 1 with
        | none => (atobDecode "undefined").map some
        | some body => (atobDecode body).map some

/-- An embedded PNG as pdf-lib exposes it. -/
structure PngImage where
  width : ℚ
  height : ℚ

/-- pdf-lib collaborators of `addSignatureToPdf`: `embedPng` (which
throws on bytes that are not a PNG) and the `drawImage`-plus-`save`
step producing new document bytes. -/
structure SignatureEnv where
  embedPng : Bytes → Except String PngImage
  drawAndSave : Bytes → PngImage → ℚ → ℚ → ℚ → ℚ → Bytes

/-- `0`, `undefined` and `NaN` dimensions are falsy. -/
def qFalsy (v : Option ℚ) : Bool := v = none ∨ v = some 0

/-- `addSignatureToPdf` (pdfUtils.js): a `null` image payload returns
the input bytes unchanged; otherwise the PNG is embedded, a missing
dimension is derived from the image's aspect ratio, and the image is
drawn at the rectangle. -/
def addSignatureToPdf (env : SignatureEnv) (bytes : Bytes) (x y : ℚ)
    (width height : Option ℚ) (dataUrl : Option String) :
    Except String Bytes :=
  match dataUrlToBytes dataUrl with
  | Except.error e => Except.error e
  | Except.ok none => Except.ok bytes
  | Except.ok (some imageBytes) =>
      match env.embedPng imageBytes with
      | Except.error e => Except.error e
      | Except.ok png =>
          let targetW0 := qOr0 width
          let targetH0 := qOr0 height
          let targetH :=
            if qFalsy height then png.height * (targetW0 / png.width)
            else targetH0
          let targetW :=
            if qFalsy height = false ∧ qFalsy width then
              png.width * (targetH0 / png.height)
            else targetW0
          Except.ok (env.drawAndSave bytes png x y targetW targetH)

/-! ### Text wrapping (`wrapText`, pdfUtils.js) -/

/-- `text.split('\n')` (keeps empty segments). -/
def splitLinesAux : List Char → List Char → List String
  | [], acc => [String.mk acc.reverse]
  | c :: cs, acc =>
      if c = '\n' then String.mk acc.reverse :: splitLinesAux cs []
      else splitLinesAux cs (c :: acc)

/-- Split a string at newline characters. -/
def splitLines (s : String) : List String := splitLinesAux s.data []

/-- `paragraph.split(/\s+/).filter(Boolean)`: the maximal runs of
non-whitespace characters. -/
def splitWordsAux : List Char → List Char → List String
  | [], acc => if acc = [] then [] else [String.mk acc.reverse]
  | c :: cs, acc =>
      if isJsWs c then
        if acc = [] then splitWordsAux cs []
        else String.mk acc.reverse :: splitWordsAux cs []
      else splitWordsAux cs (c :: acc)

/-- The word list of a paragraph. -/
def splitWords (s : String) : List String := splitWordsAux s.data []

/-- Join words with single spaces (the way the wrapping loop builds a
line string: `line ? line + ' ' + word : word`). -/
def joinSp : List String → String
  | [] => ""
  | [w] => w
  | w :: ws => w ++ " " ++ joinSp ws

/-- One step of the wrapping loop (pdfUtils.js, lines 107-116): extend
the current line by the word unless that would exceed `maxWidth` while
the line is nonempty, in which case the line is emitted and the word
starts a new line. -/
def wrapStep (w : String → ℚ) (maxWidth : ℚ) (st : List String × String)
    (word : String) : List String × String :=
  let testLine := if st.2 = "" then word else st.2 ++ " " ++ word
  if maxWidth < w testLine ∧ st.2 ≠ "" then (st.1 ++ [st.2], word)
  else (st.1, testLine)

/-- The `words.forEach` fold of the wrapping loop. -/
def wrapWalk (w : String → ℚ) (maxWidth : ℚ) :
    List String × String → List String → List String × String
  | st, [] => st
  | st, word :: rest => wrapWalk w maxWidth (wrapStep w maxWidth st word) rest

/-- Wrapping of a single paragraph: run the fold over its words, then
push the pending line when it is nonempty or the paragraph itself is
empty. -/
def wrapParagraph (w : String → ℚ) (maxWidth : ℚ) (paragraph : String) :
    List String :=
  let st := wrapWalk w maxWidth ([], "") (splitWords paragraph)
  if st.2 ≠ "" ∨ paragraph = "" then st.1 ++ [st.2] else st.1

/-- Paragraphs contribute their wrapped lines separated by an empty
line (`lines.push('')` between paragraphs). -/
def wrapParagraphs (w : String → ℚ) (maxWidth : ℚ) : List String → List String
  | [] => []
  | [p] => wrapParagraph w maxWidth p
  | p :: rest => wrapParagraph w maxWidth p ++ [""] ++ wrapParagraphs w maxWidth rest

/-- `wrapText` (pdfUtils.js): empty text yields `['']`, a falsy
`maxWidth` (missing or 0) yields the raw newline split, otherwise each
paragraph is word-wrapped against the font measure
`font.widthOfTextAtSize(-, size)` (abstracted as `w`). -/
def wrapText (w : String → ℚ) (text : String) (maxWidth : Option ℚ) :
    List String :=
  if text = "" then [""]
  else
    match maxWidth with
    | none => splitLines text
    | some mw =>
        if mw = 0 then splitLines text
        else wrapParagraphs w mw (splitLines text)

/-! ## Shared helper lemmas -/

lemma char_ne_of_toNat_ne {c d : Char} (h : c.toNat ≠ d.toNat) : c ≠ d :=
  fun hcd => h (by rw [hcd])

lemma hexDigitVal_range {c : Char} {v : Nat} (h : hexDigitVal c = some v) :
    v ≤ 15 ∧ ((48 ≤ c.toNat ∧ c.toNat ≤ 57) ∨ (97 ≤ c.toNat ∧ c.toNat ≤ 102) ∨
      (65 ≤ c.toNat ∧ c.toNat ≤ 70)) := by
  unfold hexDigitVal at h
  split_ifs at h with h1 h2 h3 <;> simp only [Option.some.injEq] at h <;> omega

lemma hexDigit_char_facts {c : Char} {v : Nat} (h : hexDigitVal c = some v) :
    isJsWs c = false ∧ c ≠ '-' ∧ c ≠ '+' ∧ c ≠ 'x' ∧ c ≠ 'X' := by
  have hr := (hexDigitVal_range h).2
  have e1 : ('-').toNat = 45 := rfl
  have e2 : ('+').toNat = 43 := rfl
  have e3 : ('x').toNat = 120 := rfl
  have e4 : ('X').toNat = 88 := rfl
  refine ⟨?_, char_ne_of_toNat_ne (by omega), char_ne_of_toNat_ne (by omega),
    char_ne_of_toNat_ne (by omega), char_ne_of_toNat_ne (by omega)⟩
  simp only [isJsWs, decide_eq_false_iff_not]
  omega

lemma jsParseInt16_two_hex {c1 c2 : Char} {v1 v2 : Nat}
    (h1 : hexDigitVal c1 = some v1) (h2 : hexDigitVal c2 = some v2) :
    jsParseInt16 (String.mk [c1, c2]) = some ((v1 * 16 + v2 : Nat) : Int) := by
  obtain ⟨hws1, hm1, hp1, -, -⟩ := hexDigit_char_facts h1
  obtain ⟨-, -, -, hx2, hX2⟩ := hexDigit_char_facts h2
  simp only [jsParseInt16, List.dropWhile_cons, hws1, Bool.false_eq_true, if_false,
    List.head?_cons, Option.some.injEq]
  rw [if_neg (show ¬(c1 = '-' ∨ c1 = '+') from by rintro (h | h); exacts [hm1 h, hp1 h])]
  rw [if_neg (show ¬(List.take 2 [c1, c2] = ['0', 'x'] ∨ List.take 2 [c1, c2] = ['0', 'X']) from by
    simp only [List.take_succ_cons, List.take_zero, List.cons.injEq, and_true]
    rintro (h | h) <;> exact absurd h.2 (by simp_all))]
  simp only [h1, hexRun, h2]
  simp only [decide_eq_true_eq, hm1, if_false, decide_eq_false_iff_not]
  push_cast
  ring_nf

lemma list_length_six {α : Type} {l : List α} (h : l.length = 6) :
    ∃ a b c d e f, l = [a, b, c, d, e, f] := by
  rcases l with - | ⟨a, - | ⟨b, - | ⟨c, - | ⟨d, - | ⟨e, - | ⟨f, - | ⟨g, l⟩⟩⟩⟩⟩⟩⟩ <;>
    simp_all

/-! ## Claim theorems -/

/-- C3, counterexample: in a 2-page document a negative page index
resolves to page 0, not to the last page, so not every out-of-range
index resolves to the last page. -/
theorem safePageIndex_negative_counterexample :
    safePageIndex (some (-1)) 2 = 0 ∧ safePageIndex (some (-1)) 2 ≠ (2 : Int) - 1 := by
  decide

/-- C3, amended: the page index of `pdf:signWithP12` is always clamped
into `[0, pageCount - 1]` (never a failure); an index at or beyond the
page count resolves to the last page, while a negative or non-numeric
index resolves to the first page. -/
theorem safePageIndex_clamps_into_range (pageIndex : Option Int) (pageCount : Nat)
    (h : 1 ≤ pageCount) :
    0 ≤ safePageIndex pageIndex pageCount ∧
    safePageIndex pageIndex pageCount ≤ (pageCount : Int) - 1 ∧
    (∀ k : Int, pageIndex = some k → (pageCount : Int) ≤ k →
      safePageIndex pageIndex pageCount = (pageCount : Int) - 1) ∧
    (∀ k : Int, pageIndex = some k → k < 0 →
      safePageIndex pageIndex pageCount = 0) ∧
    (pageIndex = none → safePageIndex pageIndex pageCount = 0) := by
  unfold safePageIndex jsNumberOr0
  rcases pageIndex with - | k
  · simp only [Option.getD_none]
    refine ⟨by omega, by omega, ?_, ?_, fun _ => by omega⟩ <;>
      exact fun k hk => absurd hk (by simp)
  · simp only [Option.getD_some]
    refine ⟨by omega, by omega, ?_, ?_, by simp⟩
    · intro k' hk' hc
      obtain rfl : k = k' := by injection hk'
      omega
    · intro k' hk' hc
      obtain rfl : k = k' := by injection hk'
      omega

/-- C3 witness: a concrete in-range application of the clamping
theorem. -/
theorem safePageIndex_clamps_witness :
    0 ≤ safePageIndex (some 5) 3 ∧
    safePageIndex (some 5) 3 ≤ (3 : Int) - 1 ∧
    (∀ k : Int, (some 5 : Option Int) = some k → (3 : Int) ≤ k →
      safePageIndex (some 5) 3 = (3 : Int) - 1) ∧
    (∀ k : Int, (some 5 : Option Int) = some k → k < 0 →
      safePageIndex (some 5) 3 = 0) ∧
    ((some 5 : Option Int) = none → safePageIndex (some 5) 3 = 0) :=
  safePageIndex_clamps_into_range (some 5) 3 (by norm_num)

lemma hexToRgb_six_hex {h : String} (hne : h ≠ "")
    {c1 c2 c3 c4 c5 c6 : Char}
    (hcl : removeFirstHash h.data = [c1, c2, c3, c4, c5, c6])
    {v1 v2 v3 v4 v5 v6 : Nat}
    (hv1 : hexDigitVal c1 = some v1) (hv2 : hexDigitVal c2 = some v2)
    (hv3 : hexDigitVal c3 = some v3) (hv4 : hexDigitVal c4 = some v4)
    (hv5 : hexDigitVal c5 = some v5) (hv6 : hexDigitVal c6 = some v6) :
    hexToRgb (some h) = ⟨some (((v1 * 16 + v2 : Nat) : ℚ) / 255),
      some (((v3 * 16 + v4 : Nat) : ℚ) / 255),
      some (((v5 * 16 + v6 : Nat) : ℚ) / 255)⟩ := by
  simp only [hexToRgb, if_neg hne, hcl]
  rw [if_neg (by simp)]
  have t12 : List.take 2 [c1, c2, c3, c4, c5, c6] = [c1, c2] := rfl
  have t34 : List.take 2 (List.drop 2 [c1, c2, c3, c4, c5, c6]) = [c3, c4] := rfl
  have t56 : List.take 2 (List.drop 4 [c1, c2, c3, c4, c5, c6]) = [c5, c6] := rfl
  rw [t12, t34, t56]
  rw [show ({ data := [c1, c2] } : String) = String.mk [c1, c2] from rfl,
    show ({ data := [c3, c4] } : String) = String.mk [c3, c4] from rfl,
    show ({ data := [c5, c6] } : String) = String.mk [c5, c6] from rfl,
    jsParseInt16_two_hex hv1 hv2, jsParseInt16_two_hex hv3 hv4,
    jsParseInt16_two_hex hv5 hv6]
  simp

/-- C9, counterexample: the length-6 input `zzzzzz` contains only
non-hex characters, yet `hexToRgb` does not fall back to the default
near-black — `parseInt` yields `NaN` and every channel becomes `NaN`. -/
theorem hexToRgb_nonhex_counterexample :
    hexToRgb (some "zzzzzz") = ⟨none, none, none⟩ ∧
    (⟨none, none, none⟩ : JsColor) ≠ defaultInk := by
  constructor
  · rfl
  · simp [defaultInk]

/-- C9, amended: a missing, empty, or wrong-length (after removing one
`#`) colour string falls back to the same default near-black; a
length-6 string of hexadecimal digits is converted to a triple with
every channel in `[0, 1]`.  (A length-6 string containing non-hex
characters is instead parsed with `parseInt` prefix semantics and can
produce `NaN` channels, per the counterexample.) -/
theorem hexToRgb_default_and_range :
    (hexToRgb none = defaultInk) ∧
    (hexToRgb (some "") = defaultInk) ∧
    (∀ h : String, (removeFirstHash h.data).length ≠ 6 →
      hexToRgb (some h) = defaultInk) ∧
    (∀ h : String, h ≠ "" → (removeFirstHash h.data).length = 6 →
      (∀ c ∈ removeFirstHash h.data, (hexDigitVal c).isSome) →
      ∃ r g b : ℚ, hexToRgb (some h) = ⟨some r, some g, some b⟩ ∧
        0 ≤ r ∧ r ≤ 1 ∧ 0 ≤ g ∧ g ≤ 1 ∧ 0 ≤ b ∧ b ≤ 1) := by
  refine ⟨rfl, rfl, ?_, ?_⟩
  · intro h hlen
    by_cases hne : h = ""
    · subst hne; rfl
    · simp only [hexToRgb, if_neg hne, if_pos hlen]
  · intro h hne hlen hhex
    obtain ⟨c1, c2, c3, c4, c5, c6, hcl⟩ := list_length_six hlen
    have g1 : (hexDigitVal c1).isSome := hhex c1 (by rw [hcl]; simp)
    have g2 : (hexDigitVal c2).isSome := hhex c2 (by rw [hcl]; simp)
    have g3 : (hexDigitVal c3).isSome := hhex c3 (by rw [hcl]; simp)
    have g4 : (hexDigitVal c4).isSome := hhex c4 (by rw [hcl]; simp)
    have g5 : (hexDigitVal c5).isSome := hhex c5 (by rw [hcl]; simp)
    have g6 : (hexDigitVal c6).isSome := hhex c6 (by rw [hcl]; simp)
    obtain ⟨v1, hv1⟩ := Option.isSome_iff_exists.mp g1
    obtain ⟨v2, hv2⟩ := Option.isSome_iff_exists.mp g2
    obtain ⟨v3, hv3⟩ := Option.isSome_iff_exists.mp g3
    obtain ⟨v4, hv4⟩ := Option.isSome_iff_exists.mp g4
    obtain ⟨v5, hv5⟩ := Option.isSome_iff_exists.mp g5
    obtain ⟨v6, hv6⟩ := Option.isSome_iff_exists.mp g6
    refine ⟨((v1 * 16 + v2 : Nat) : ℚ) / 255, ((v3 * 16 + v4 : Nat) : ℚ) / 255,
      ((v5 * 16 + v6 : Nat) : ℚ) / 255, ?_, ?_, ?_, ?_, ?_, ?_, ?_⟩
    · exact hexToRgb_six_hex hne hcl hv1 hv2 hv3 hv4 hv5 hv6
    · positivity
    · rw [div_le_one (by norm_num)]
      have b1 := (hexDigitVal_range hv1).1
      have b2 := (hexDigitVal_range hv2).1
      have : (v1 * 16 + v2 : Nat) ≤ 255 := by omega
      exact_mod_cast this
    · positivity
    · rw [div_le_one (by norm_num)]
      have b3 := (hexDigitVal_range hv3).1
      have b4 := (hexDigitVal_range hv4).1
      have : (v3 * 16 + v4 : Nat) ≤ 255 := by omega
      exact_mod_cast this
    · positivity
    · rw [div_le_one (by norm_num)]
      have b5 := (hexDigitVal_range hv5).1
      have b6 := (hexDigitVal_range hv6).1
      have : (v5 * 16 + v6 : Nat) ≤ 255 := by omega
      exact_mod_cast this

/-- C9 witness: the colour `#0d1117` used by the app parses to channels
inside `[0, 1]`, and the fallback cases produce the default. -/
theorem hexToRgb_witness :
    ∃ r g b : ℚ, hexToRgb (some "#0d1117") = ⟨some r, some g, some b⟩ ∧
      0 ≤ r ∧ r ≤ 1 ∧ 0 ≤ g ∧ g ≤ 1 ∧ 0 ≤ b ∧ b ≤ 1 :=
  hexToRgb_default_and_range.2.2.2 "#0d1117" (by decide) (by decide) (by decide)

/-- C7: rescaling the draft store multiplies every geometric field by
`newScale / oldScale`, so rescaling from `s1` to `s2` and back to `s1`
recovers every draft exactly (the spec's rounding tolerance is
subsumed by exact rational arithmetic). -/
theorem rescaleDrafts_roundtrip (s1 s2 : ℚ) (ds : List Draft)
    (h1 : s1 ≠ 0) (h2 : s2 ≠ 0) :
    rescaleDrafts s2 s1 (rescaleDrafts s1 s2 ds) = ds := by
  by_cases hlen : ds.length = 0
  · obtain rfl := List.length_eq_zero.mp hlen
    simp [rescaleDrafts]
  · by_cases heq : s2 = s1
    · subst heq
      simp [rescaleDrafts]
    · unfold rescaleDrafts
      rw [if_pos (show ds.length ≠ 0 ∧ s2 ≠ s1 from ⟨hlen, heq⟩)]
      simp only [List.length_map]
      rw [if_pos (show ds.length ≠ 0 ∧ s1 ≠ s2 from ⟨hlen, fun hh => heq hh.symm⟩)]
      rw [List.map_map]
      conv_rhs => rw [show ds = ds.map id from (List.map_id ds).symm]
      apply List.map_congr_left
      intro d _
      simp only [Function.comp_apply, id_eq]
      ext <;> first
        | rfl
        | (field_simp; try ring)

/-- C7 witness: a concrete draft at scale 1 survives a rescale to 2 and
back. -/
theorem rescaleDrafts_roundtrip_witness :
    rescaleDrafts 2 1 (rescaleDrafts 1 2
      [{ id := "draft-1", dtype := DraftType.text, pageIndex := 0,
         x := 40, y := 40, width := 200, height := 40 }]) =
      [{ id := "draft-1", dtype := DraftType.text, pageIndex := 0,
         x := 40, y := 40, width := 200, height := 40 }] :=
  rescaleDrafts_roundtrip 1 2 _ (by norm_num) (by norm_num)

lemma find?_split {α : Type} {p : α → Bool} {l : List α} {a : α}
    (h : l.find? p = some a) :
    ∃ pre post, l = pre ++ a :: post ∧ (∀ b ∈ pre, p b = false) ∧ p a = true := by
  induction l with
  | nil => simp at h
  | cons x xs ih =>
    by_cases hx : p x
    · rw [List.find?_cons_of_pos _ hx] at h
      obtain rfl := Option.some.inj h
      exact ⟨[], xs, rfl, by simp, hx⟩
    · rw [List.find?_cons_of_neg _ (by simpa using hx)] at h
      obtain ⟨pre, post, hsplit, hpre, hpa⟩ := ih h
      refine ⟨x :: pre, post, by rw [hsplit]; rfl, ?_, hpa⟩
      intro b hb
      rcases List.mem_cons.mp hb with rfl | hb'
      · simpa using hx
      · exact hpre b hb'

lemma updateNamedField_append {fieldName : String} {value : JsValue}
    {pre post : List FormField} {f : FormField}
    (hpre : ∀ g ∈ pre, g.name ≠ fieldName) (hf : f.name = fieldName) :
    updateNamedField fieldName value (pre ++ f :: post) =
      pre ++ applyFieldValue f value :: post := by
  induction pre with
  | nil => simp [updateNamedField, hf]
  | cons g gs ih =>
    simp only [List.cons_append, updateNamedField,
      if_neg (hpre g (List.mem_cons_self g gs)), List.append_eq]
    rw [ih fun g' hg' => hpre g' (List.mem_cons_of_mem g hg')]

/-- C4: `setFormFieldValue` is a silent no-op returning the input
unchanged when no field of the given name exists; when the field
exists, exactly that field is rewritten by the kind dispatch (text
replaces the string, checkbox checks/unchecks by truthiness,
dropdown / option list / radio select the value only when truthy). -/
theorem setFormFieldValue_dispatch :
    (∀ (doc : List FormField) (fieldName : String) (value : JsValue),
      doc.find? (fun f => f.name = fieldName) = none →
      setFormFieldValue doc fieldName value = doc) ∧
    (∀ (doc : List FormField) (fieldName : String) (value : JsValue)
      (f : FormField),
      doc.find? (fun f => f.name = fieldName) = some f →
      ∃ pre post, doc = pre ++ f :: post ∧ f.name = fieldName ∧
        (∀ g ∈ pre, g.name ≠ fieldName) ∧
        setFormFieldValue doc fieldName value =
          pre ++ applyFieldValue f value :: post) ∧
    (∀ (f : FormField) (value : JsValue), f.kind = FieldKind.text →
      applyFieldValue f value = { f with textValue := jsValueToString value }) ∧
    (∀ (f : FormField) (value : JsValue), f.kind = FieldKind.checkbox →
      applyFieldValue f value = { f with checked := jsTruthy value }) ∧
    (∀ (f : FormField) (value : JsValue),
      f.kind = FieldKind.dropdown ∨ f.kind = FieldKind.optionList ∨
        f.kind = FieldKind.radio →
      applyFieldValue f value =
        if jsTruthy value then { f with selected := some (jsValueToString value) }
        else f) := by
  refine ⟨?_, ?_, ?_, ?_, ?_⟩
  · intro doc fieldName value h
    unfold setFormFieldValue
    rw [h]
  · intro doc fieldName value f h
    obtain ⟨pre, post, hsplit, hpre, hpf⟩ := find?_split h
    have hf : f.name = fieldName := by simpa using hpf
    have hpre' : ∀ g ∈ pre, g.name ≠ fieldName := by
      intro g hg
      have := hpre g hg
      simpa using this
    refine ⟨pre, post, hsplit, hf, hpre', ?_⟩
    unfold setFormFieldValue
    rw [h, hsplit]
    exact updateNamedField_append hpre' hf
  · intro f value hk
    unfold applyFieldValue
    rw [hk]
  · intro f value hk
    unfold applyFieldValue
    rw [hk]
  · intro f value hk
    unfold applyFieldValue
    rcases hk with hk | hk | hk <;> rw [hk]

/-- C4 witness: writing to a non-existent field name returns the
document unchanged, and writing to an existing text field rewrites
exactly that field. -/
theorem setFormFieldValue_witness :
    setFormFieldValue [{ name := "first-name", kind := FieldKind.text }]
        "ghost-field" (JsValue.str "x") =
      [{ name := "first-name", kind := FieldKind.text }] ∧
    ∃ pre post,
      ([{ name := "first-name", kind := FieldKind.text }] : List FormField) =
          pre ++ ({ name := "first-name", kind := FieldKind.text } : FormField) :: post ∧
        ({ name := "first-name", kind := FieldKind.text } : FormField).name = "first-name" ∧
        (∀ g ∈ pre, g.name ≠ "first-name") ∧
        setFormFieldValue [{ name := "first-name", kind := FieldKind.text }]
            "first-name" (JsValue.str "x") =
          pre ++ applyFieldValue { name := "first-name", kind := FieldKind.text }
              (JsValue.str "x") :: post :=
  ⟨setFormFieldValue_dispatch.1 _ _ _ (by rfl),
    setFormFieldValue_dispatch.2.1 _ _ (JsValue.str "x") _ (by rfl)⟩

/-- C2: calling the signing handler with a missing or empty certificate
payload (and a decodable PDF payload) returns the missing-credential
error `Certificate data is missing.` and the placeholder-reservation
step is never invoked. -/
theorem signWithP12_missing_credential (env : SignEnv) (payload : SignPayload)
    (hpdf : ∃ b, decodeBase64Payload env.b64decode payload.pdfBase64
      MAX_PDF_BYTES "PDF" = Except.ok b)
    (hcert : payload.certBase64 = none ∨ payload.certBase64 = some "") :
    (signWithP12 env payload).result = Except.error "Certificate data is missing." ∧
    (signWithP12 env payload).placeholderInvoked = false := by
  obtain ⟨b, hb⟩ := hpdf
  have hc : decodeBase64Payload env.b64decode payload.certBase64 MAX_CERT_BYTES
      "Certificate" = Except.error "Certificate data is missing." := by
    rcases hcert with h | h <;> rw [h] <;> rfl
  unfold signWithP12
  rw [hb, hc]
  exact ⟨rfl, rfl⟩

/-- C2 witness: a concrete signing call with an empty certificate
payload. -/
theorem signWithP12_missing_credential_witness :
    (signWithP12
        ⟨fun _ => [1, 2, 3], true, fun _ => Except.ok 1,
          fun b _ => Except.ok b, fun b _ _ => Except.ok b⟩
        { pdfBase64 := some "JVBERg==", certBase64 := some "" }).result =
      Except.error "Certificate data is missing." ∧
    (signWithP12
        ⟨fun _ => [1, 2, 3], true, fun _ => Except.ok 1,
          fun b _ => Except.ok b, fun b _ _ => Except.ok b⟩
        { pdfBase64 := some "JVBERg==", certBase64 := some "" }).placeholderInvoked =
      false :=
  signWithP12_missing_credential _ _ ⟨[1, 2, 3], by rfl⟩ (Or.inr rfl)

lemma ensurePdf_error {bytes : Bytes} {context msg : String}
    (h : ensurePdf bytes context = Except.error msg) :
    msg = "Invalid PDF data after " ++ context ++ "." := by
  unfold ensurePdf at h
  split_ifs at h
  exact (Except.error.inj h).symm

lemma applyDraftStep_error {env : ExportEnv} {bytes : Bytes} {draft : Draft}
    {msg : String} (h : applyDraftStep env bytes draft = Except.error msg) :
    msg = "Invalid PDF data after " ++ stepContextName draft.dtype ++ "." := by
  unfold applyDraftStep at h
  split at h
  · exact absurd h (by simp)
  · split at h
    · rename_i hdt
      dsimp only at h
      split at h
      · exact absurd h (by simp)
      · rename_i e he
        cases h
        simp only [hdt, stepContextName]
        exact ensurePdf_error he
    · rename_i hdt
      dsimp only at h
      split at h
      · exact absurd h (by simp)
      · rename_i e he
        cases h
        simp only [hdt, stepContextName]
        exact ensurePdf_error he
    · rename_i hdt
      dsimp only at h
      split at h
      · exact absurd h (by simp)
      · rename_i e he
        cases h
        simp only [hdt, stepContextName]
        exact ensurePdf_error he
    · rename_i hdt
      split at h
      · exact absurd h (by simp)
      · dsimp only at h
        split at h
        · exact absurd h (by simp)
        · split at h
          · exact absurd h (by simp)
          · split at h
            · exact absurd h (by simp)
            · rename_i e he
              cases h
              simp only [hdt, stepContextName]
              exact ensurePdf_error he

lemma exportDrafts_error {env : ExportEnv} {drafts : List Draft} {bytes : Bytes}
    {msg : String} (h : exportDrafts env drafts bytes = Except.error msg) :
    ∃ draft ∈ drafts,
      msg = "Invalid PDF data after " ++ stepContextName draft.dtype ++ "." := by
  induction drafts generalizing bytes with
  | nil => exact absurd h (by simp [exportDrafts])
  | cons d rest ih =>
    unfold exportDrafts at h
    cases hstep : applyDraftStep env bytes d <;> rw [hstep] at h
    · cases h
      exact ⟨d, List.mem_cons_self d rest, applyDraftStep_error hstep⟩
    · obtain ⟨d', hd', hmsg⟩ := ih h
      exact ⟨d', List.mem_cons_of_mem d hd', hmsg⟩


/-- C1: when any composite step of the export loop produces bytes that
fail the `%PDF` header check, the whole export aborts: the thrown error
identifies which step failed (`Invalid PDF data after <step>.` for a
draft in the list), the in-memory document bytes and the draft list are
left untouched, nothing is handed to the save collaborator, and the
user-facing error state is set. -/
theorem export_aborts_on_invalid_step (env : ExportEnv) (certificateData : String)
    (st : AppState) (bytes : Bytes) (msg : String)
    (hb : st.pdfBytes = some bytes) (hh : hasPdfHeader bytes = true)
    (hdialog : env.saveDialog = none ∨
      ∃ p, env.saveDialog = some (Except.ok (some p)))
    (hfail : exportDrafts env st.drafts bytes = Except.error msg) :
    (∃ draft ∈ st.drafts,
      msg = "Invalid PDF data after " ++ stepContextName draft.dtype ++ ".") ∧
    (handleExport env certificateData st).state.pdfBytes = st.pdfBytes ∧
    (handleExport env certificateData st).state.drafts = st.drafts ∧
    (handleExport env certificateData st).state.signError =
      "Export failed. Please try again or reopen the PDF." ∧
    (handleExport env certificateData st).written = none := by
  refine ⟨exportDrafts_error hfail, ?_⟩
  unfold handleExport
  rcases hdialog with hd | ⟨p, hd⟩ <;> rw [hb, hd] <;> simp [hh, hfail, hb]

/-- C1 witness: a concrete export in which the text step yields bytes
without the header aborts with the step-identifying message and leaves
the state untouched. -/
theorem export_aborts_on_invalid_step_witness :
    (∃ draft ∈ [({ id := "d", dtype := DraftType.text, pageIndex := 0, x := 10, y := 10, width := 100, height := 40 } : Draft)],
      "Invalid PDF data after adding text." =
        "Invalid PDF data after " ++ stepContextName draft.dtype ++ ".") ∧
    (handleExport
        ⟨fun _ => some ⟨612, 792, fun a b => (a, b)⟩, true, fun _ _ _ => [],
          fun b _ _ => b, fun b _ _ => b, fun b _ _ => b, none, none, true⟩ ""
        ⟨some [37, 80, 68, 70],
          [{ id := "d", dtype := DraftType.text, pageIndex := 0, x := 10, y := 10, width := 100, height := 40 }], "", false⟩).state.pdfBytes =
      (⟨some [37, 80, 68, 70],
          [{ id := "d", dtype := DraftType.text, pageIndex := 0, x := 10, y := 10, width := 100, height := 40 }], "", false⟩ : AppState).pdfBytes ∧
    (handleExport
        ⟨fun _ => some ⟨612, 792, fun a b => (a, b)⟩, true, fun _ _ _ => [],
          fun b _ _ => b, fun b _ _ => b, fun b _ _ => b, none, none, true⟩ ""
        ⟨some [37, 80, 68, 70],
          [{ id := "d", dtype := DraftType.text, pageIndex := 0, x := 10, y := 10, width := 100, height := 40 }], "", false⟩).state.drafts =
      (⟨some [37, 80, 68, 70],
          [{ id := "d", dtype := DraftType.text, pageIndex := 0, x := 10, y := 10, width := 100, height := 40 }], "", false⟩ : AppState).drafts ∧
    (handleExport
        ⟨fun _ => some ⟨612, 792, fun a b => (a, b)⟩, true, fun _ _ _ => [],
          fun b _ _ => b, fun b _ _ => b, fun b _ _ => b, none, none, true⟩ ""
        ⟨some [37, 80, 68, 70],
          [{ id := "d", dtype := DraftType.text, pageIndex := 0, x := 10, y := 10, width := 100, height := 40 }], "", false⟩).state.signError =
      "Export failed. Please try again or reopen the PDF." ∧
    (handleExport
        ⟨fun _ => some ⟨612, 792, fun a b => (a, b)⟩, true, fun _ _ _ => [],
          fun b _ _ => b, fun b _ _ => b, fun b _ _ => b, none, none, true⟩ ""
        ⟨some [37, 80, 68, 70],
          [{ id := "d", dtype := DraftType.text, pageIndex := 0, x := 10, y := 10, width := 100, height := 40 }], "", false⟩).written = none :=
  export_aborts_on_invalid_step
    ⟨fun _ => some ⟨612, 792, fun a b => (a, b)⟩, true, fun _ _ _ => [],
      fun b _ _ => b, fun b _ _ => b, fun b _ _ => b, none, none, true⟩ ""
    ⟨some [37, 80, 68, 70],
      [{ id := "d", dtype := DraftType.text, pageIndex := 0, x := 10, y := 10, width := 100, height := 40 }],
      "", false⟩
    [37, 80, 68, 70] "Invalid PDF data after adding text." rfl rfl (Or.inl rfl) (by rfl)

/-- C8: exporting with an empty draft list performs no mutation step:
the bytes handed to the save collaborator are exactly the input bytes,
and the in-memory document keeps those same bytes. -/
theorem export_zero_drafts_identity (env : ExportEnv) (certificateData : String)
    (st : AppState) (bytes : Bytes)
    (hb : st.pdfBytes = some bytes) (hd : st.drafts = [])
    (hh : hasPdfHeader bytes = true)
    (hdialog : env.saveDialog = none ∨
      ∃ p, env.saveDialog = some (Except.ok (some p)))
    (hw : env.writeOk = true) :
    (handleExport env certificateData st).written = some bytes ∧
    (handleExport env certificateData st).state.pdfBytes = some bytes ∧
    (handleExport env certificateData st).state.drafts = [] := by
  unfold handleExport
  rcases hdialog with hd' | ⟨p, hd'⟩ <;> rw [hb, hd'] <;>
    simp [hh, hd, exportDrafts, signPhase, hw]

/-- C8 witness: a concrete zero-draft export hands back the input
bytes unchanged. -/
theorem export_zero_drafts_identity_witness :
    (handleExport
        ⟨fun _ => none, true, fun b _ _ => b, fun b _ _ => b, fun b _ _ => b,
          fun b _ _ => b, none, none, true⟩ ""
        ⟨some [37, 80, 68, 70, 1], [], "", false⟩).written = some [37, 80, 68, 70, 1] ∧
    (handleExport
        ⟨fun _ => none, true, fun b _ _ => b, fun b _ _ => b, fun b _ _ => b,
          fun b _ _ => b, none, none, true⟩ ""
        ⟨some [37, 80, 68, 70, 1], [], "", false⟩).state.pdfBytes =
      some [37, 80, 68, 70, 1] ∧
    (handleExport
        ⟨fun _ => none, true, fun b _ _ => b, fun b _ _ => b, fun b _ _ => b,
          fun b _ _ => b, none, none, true⟩ ""
        ⟨some [37, 80, 68, 70, 1], [], "", false⟩).state.drafts = [] :=
  export_zero_drafts_identity
    ⟨fun _ => none, true, fun b _ _ => b, fun b _ _ => b, fun b _ _ => b,
      fun b _ _ => b, none, none, true⟩ ""
    ⟨some [37, 80, 68, 70, 1], [], "", false⟩
    [37, 80, 68, 70, 1] rfl rfl rfl (Or.inl rfl) rfl

/-- C10, counterexample: a data URL with an empty base64 body decodes
to an empty (truthy) byte array, so `addSignatureToPdf` does not return
the input unchanged — it proceeds to PNG embedding, which fails on
empty bytes and propagates the error. -/
theorem addSignatureToPdf_empty_body_counterexample :
    addSignatureToPdf ⟨fun _ => Except.error "Input is not a PNG", fun b _ _ _ _ _ => b⟩
        [37, 80, 68, 70] 0 0 (some 100) (some 50) (some "data:image/png;base64,") =
      Except.error "Input is not a PNG" ∧
    (Except.error "Input is not a PNG" : Except String Bytes) ≠
      Except.ok [37, 80, 68, 70] := by
  exact ⟨rfl, by simp⟩

/-- C10, amended: only a missing or empty (falsy) data URL makes
`addSignatureToPdf` return the input bytes unchanged; a data URL whose
base64 body is empty decodes to an empty byte array and is handed to
PNG embedding, whose failure on empty bytes propagates as an error
instead of a no-op. -/
theorem addSignatureToPdf_missing_payload (env : SignatureEnv) (bytes : Bytes)
    (x y : ℚ) (width height : Option ℚ) :
    addSignatureToPdf env bytes x y width height none = Except.ok bytes ∧
    addSignatureToPdf env bytes x y width height (some "") = Except.ok bytes ∧
    dataUrlToBytes (some "data:image/png;base64,") = Except.ok (some []) ∧
    (∀ e, env.embedPng [] = Except.error e →
      addSignatureToPdf env bytes x y width height
        (some "data:image/png;base64,") = Except.error e) := by
  refine ⟨rfl, rfl, by rfl, ?_⟩
  intro e he
  unfold addSignatureToPdf
  rw [show dataUrlToBytes (some "data:image/png;base64,") = Except.ok (some [])
    from rfl]
  dsimp only
  rw [he]

/-- C10 witness: the no-op case and the failing empty-body case at
concrete inputs. -/
theorem addSignatureToPdf_missing_payload_witness :
    addSignatureToPdf ⟨fun _ => Except.error "bad png", fun b _ _ _ _ _ => b⟩
        [1, 2] 0 0 none none none = Except.ok [1, 2] ∧
    addSignatureToPdf ⟨fun _ => Except.error "bad png", fun b _ _ _ _ _ => b⟩
        [1, 2] 0 0 none none (some "data:image/png;base64,") =
      Except.error "bad png" :=
  ⟨(addSignatureToPdf_missing_payload
      ⟨fun _ => Except.error "bad png", fun b _ _ _ _ _ => b⟩ [1, 2] 0 0 none none).1,
    (addSignatureToPdf_missing_payload
      ⟨fun _ => Except.error "bad png", fun b _ _ _ _ _ => b⟩ [1, 2] 0 0 none none).2.2.2
      "bad png" rfl⟩

lemma clampQ_mem {lo hi : ℚ} (h : lo ≤ hi) (v : ℚ) :
    lo ≤ clampQ v lo hi ∧ clampQ v lo hi ≤ hi :=
  ⟨le_min (le_max_right v lo) h, min_le_right _ _⟩

lemma min_add_abs_sub (a b : ℚ) : min a b + |b - a| = max a b := by
  rcases le_total a b with h | h
  · rw [min_eq_left h, max_eq_right h, abs_of_nonneg (by linarith)]
    ring
  · rw [min_eq_right h, max_eq_left h, abs_of_nonpos (by linarith)]
    ring

/-- C6, counterexample: free-hand text creation
(`handleTextPointerUp`) enforces the 140 x 32 minimum before clamping,
so a drag (or bare click) with the text tool on a 100 x 40 viewport
stores a draft with `x = 0` and `width = 140`:
`x + width = 140 > 100 = viewportWidth`, violating the invariant. -/
theorem textCreate_overflow_counterexample :
    textCreateRect (some ⟨100, 40, fun a b => (a, b)⟩) 10 5 20 10 =
      (0, 5, 140, 32) ∧
    (0 : ℚ) + 140 > (100 : ℚ) := by
  constructor
  · norm_num [textCreateRect, clampQ]
  · norm_num

/-- C6, amended: move/resize via `clampDraft` always yields a
rectangle fully inside the viewport; click placement (checkbox or
signature, the only tools that reach it), drag-to-draw box updates and
free-hand text creation yield a rectangle fully inside the viewport
provided the applied default/minimum size fits inside it (and, for
drag boxes, the pointer-down point lies on the page) — when the
default/minimum size exceeds the viewport the created rectangle can
protrude, per the free-hand text counterexample. -/
theorem draft_rects_stay_inside_viewport :
    (∀ (viewports : Nat → Option Viewport) (next : Draft) (vp : Viewport),
      viewports next.pageIndex = some vp →
      0 ≤ (clampDraft viewports next).x ∧
      (clampDraft viewports next).x + (clampDraft viewports next).width ≤ vp.width ∧
      0 ≤ (clampDraft viewports next).y ∧
      (clampDraft viewports next).y + (clampDraft viewports next).height ≤ vp.height) ∧
    (∀ (vp : Viewport) (tool : DraftType) (signatureDataUrl : Option String)
      (clickX clickY : ℚ) (r : ℚ × ℚ × ℚ × ℚ),
      clickPlacementRect vp tool signatureDataUrl clickX clickY = some r →
      (placementDefaults tool).1 ≤ vp.width → (placementDefaults tool).2 ≤ vp.height →
      0 ≤ r.1 ∧ r.1 + r.2.2.1 ≤ vp.width ∧
      0 ≤ r.2.1 ∧ r.2.1 + r.2.2.2 ≤ vp.height) ∧
    (∀ (vp : Viewport) (startX startY pointerX pointerY : ℚ),
      0 ≤ startX → startX ≤ vp.width → 0 ≤ startY → startY ≤ vp.height →
      0 ≤ (dragBoxRect vp startX startY pointerX pointerY).1 ∧
      (dragBoxRect vp startX startY pointerX pointerY).1 +
        (dragBoxRect vp startX startY pointerX pointerY).2.2.1 ≤ vp.width ∧
      0 ≤ (dragBoxRect vp startX startY pointerX pointerY).2.1 ∧
      (dragBoxRect vp startX startY pointerX pointerY).2.1 +
        (dragBoxRect vp startX startY pointerX pointerY).2.2.2 ≤ vp.height) ∧
    (∀ (vp : Viewport) (boxX boxY boxW boxH : ℚ),
      max boxW 140 ≤ vp.width → max boxH 32 ≤ vp.height →
      0 ≤ (textCreateRect (some vp) boxX boxY boxW boxH).1 ∧
      (textCreateRect (some vp) boxX boxY boxW boxH).1 +
        (textCreateRect (some vp) boxX boxY boxW boxH).2.2.1 ≤ vp.width ∧
      0 ≤ (textCreateRect (some vp) boxX boxY boxW boxH).2.1 ∧
      (textCreateRect (some vp) boxX boxY boxW boxH).2.1 +
        (textCreateRect (some vp) boxX boxY boxW boxH).2.2.2 ≤ vp.height) := by
  refine ⟨?_, ?_, ?_, ?_⟩
  · intro viewports next vp hvp
    unfold clampDraft
    rw [hvp]
    dsimp only
    have hww : min next.width vp.width ≤ vp.width := min_le_right _ _
    have hhh : min next.height vp.height ≤ vp.height := min_le_right _ _
    have hmx : (0 : ℚ) ≤ max 0 (vp.width - min next.width vp.width) := le_max_left _ _
    have hmy : (0 : ℚ) ≤ max 0 (vp.height - min next.height vp.height) := le_max_left _ _
    have hx := clampQ_mem hmx next.x
    have hy := clampQ_mem hmy next.y
    have hmx' : max 0 (vp.width - min next.width vp.width) =
        vp.width - min next.width vp.width := max_eq_right (by linarith)
    have hmy' : max 0 (vp.height - min next.height vp.height) =
        vp.height - min next.height vp.height := max_eq_right (by linarith)
    refine ⟨hx.1, ?_, hy.1, ?_⟩
    · have hb := hx.2
      rw [hmx'] at hb
      linarith
    · have hb := hy.2
      rw [hmy'] at hb
      linarith
  · have core : ∀ (vp : Viewport) (tool : DraftType) (clickX clickY : ℚ),
        (placementDefaults tool).1 ≤ vp.width →
        (placementDefaults tool).2 ≤ vp.height →
        0 ≤ (placeDefaultRect vp tool clickX clickY).1 ∧
        (placeDefaultRect vp tool clickX clickY).1 +
          (placeDefaultRect vp tool clickX clickY).2.2.1 ≤ vp.width ∧
        0 ≤ (placeDefaultRect vp tool clickX clickY).2.1 ∧
        (placeDefaultRect vp tool clickX clickY).2.1 +
          (placeDefaultRect vp tool clickX clickY).2.2.2 ≤ vp.height := by
      intro vp tool clickX clickY hw hh
      unfold placeDefaultRect
      dsimp only
      have hx := clampQ_mem
        (show (0 : ℚ) ≤ vp.width - (placementDefaults tool).1 by linarith)
        (clickX - (placementDefaults tool).1 / 2)
      have hy := clampQ_mem
        (show (0 : ℚ) ≤ vp.height - (placementDefaults tool).2 by linarith)
        (clickY - (placementDefaults tool).2 / 2)
      exact ⟨hx.1, by linarith [hx.2], hy.1, by linarith [hy.2]⟩
    intro vp tool sigUrl clickX clickY r hr hw hh
    cases tool with
    | text => exact absurd hr (by simp [clickPlacementRect])
    | textField => exact absurd hr (by simp [clickPlacementRect])
    | checkbox =>
      obtain rfl : r = placeDefaultRect vp DraftType.checkbox clickX clickY := by
        have := hr
        simp only [clickPlacementRect, Option.some.injEq] at this
        exact this.symm
      exact core vp DraftType.checkbox clickX clickY hw hh
    | signature =>
      rcases sigUrl with - | u
      · exact absurd hr (by simp [clickPlacementRect])
      · by_cases hu : u = ""
        · exact absurd hr (by simp [clickPlacementRect, hu])
        · obtain rfl : r = placeDefaultRect vp DraftType.signature clickX clickY := by
            have := hr
            simp only [clickPlacementRect, if_neg hu, Option.some.injEq] at this
            exact this.symm
          exact core vp DraftType.signature clickX clickY hw hh
  · intro vp startX startY pointerX pointerY hsx hsx' hsy hsy'
    unfold dragBoxRect
    dsimp only
    have hvw : (0 : ℚ) ≤ vp.width := le_trans hsx hsx'
    have hvh : (0 : ℚ) ≤ vp.height := le_trans hsy hsy'
    have hx := clampQ_mem hvw pointerX
    have hy := clampQ_mem hvh pointerY
    refine ⟨le_min hsx hx.1, ?_, le_min hsy hy.1, ?_⟩
    · rw [min_add_abs_sub]
      exact max_le hsx' hx.2
    · rw [min_add_abs_sub]
      exact max_le hsy' hy.2
  · intro vp boxX boxY boxW boxH hw hh
    unfold textCreateRect
    dsimp only
    have hmx : max (vp.width - max boxW 140) 0 = vp.width - max boxW 140 :=
      max_eq_left (by linarith)
    have hmy : max (vp.height - max boxH 32) 0 = vp.height - max boxH 32 :=
      max_eq_left (by linarith)
    have hx := clampQ_mem
      (show (0 : ℚ) ≤ max (vp.width - max boxW 140) 0 from le_max_right _ _) boxX
    have hy := clampQ_mem
      (show (0 : ℚ) ≤ max (vp.height - max boxH 32) 0 from le_max_right _ _) boxY
    refine ⟨hx.1, ?_, hy.1, ?_⟩
    · have hb := hx.2
      rw [hmx] at hb
      linarith
    · have hb := hy.2
      rw [hmy] at hb
      linarith

/-- C6 witness: on a Letter-sized viewport at scale 1, click placement
of a checkbox at an off-page point stays inside the page. -/
theorem draft_rects_stay_inside_viewport_witness :
    0 ≤ (placeDefaultRect ⟨612, 792, fun a b => (a, b)⟩ DraftType.checkbox 1000 1000).1 ∧
    (placeDefaultRect ⟨612, 792, fun a b => (a, b)⟩ DraftType.checkbox 1000 1000).1 +
      (placeDefaultRect ⟨612, 792, fun a b => (a, b)⟩ DraftType.checkbox 1000 1000).2.2.1 ≤
      (⟨612, 792, fun a b => (a, b)⟩ : Viewport).width ∧
    0 ≤ (placeDefaultRect ⟨612, 792, fun a b => (a, b)⟩ DraftType.checkbox 1000 1000).2.1 ∧
    (placeDefaultRect ⟨612, 792, fun a b => (a, b)⟩ DraftType.checkbox 1000 1000).2.1 +
      (placeDefaultRect ⟨612, 792, fun a b => (a, b)⟩ DraftType.checkbox 1000 1000).2.2.2 ≤
      (⟨612, 792, fun a b => (a, b)⟩ : Viewport).height :=
  draft_rects_stay_inside_viewport.2.1 ⟨612, 792, fun a b => (a, b)⟩
    DraftType.checkbox none 1000 1000
    (placeDefaultRect ⟨612, 792, fun a b => (a, b)⟩ DraftType.checkbox 1000 1000)
    rfl (by norm_num [placementDefaults]) (by norm_num [placementDefaults])

lemma joinSp_append_single (l : List String) (h : l ≠ []) (word : String) :
    joinSp (l ++ [word]) = joinSp l ++ " " ++ word := by
  induction l with
  | nil => exact absurd rfl h
  | cons x xs ih =>
    cases xs with
    | nil => rfl
    | cons y ys =>
      show x ++ " " ++ joinSp ((y :: ys) ++ [word]) =
        (x ++ " " ++ joinSp (y :: ys)) ++ " " ++ word
      rw [ih (List.cons_ne_nil y ys)]
      simp [String.append_assoc]

lemma joinSp_ne_empty {l : List String} (hl : ∀ x ∈ l, x ≠ "") (h : l ≠ []) :
    joinSp l ≠ "" := by
  cases l with
  | nil => exact absurd rfl h
  | cons x xs =>
    cases xs with
    | nil => exact hl x (by simp)
    | cons y ys =>
      show x ++ " " ++ joinSp (y :: ys) ≠ ""
      intro hc
      have hlen := congrArg String.length hc
      rw [String.length_append, String.length_append] at hlen
      have hsp : (" " : String).length = 1 := rfl
      have hz : ("" : String).length = 0 := rfl
      omega

lemma mem_le_joinSp (wq : String → ℚ)
    (hmono : ∀ a b : String, wq a ≤ wq (a ++ " " ++ b) ∧ wq b ≤ wq (a ++ " " ++ b)) :
    ∀ {l : List String} {u : String}, u ∈ l → wq u ≤ wq (joinSp l) := by
  intro l
  induction l with
  | nil => intro u hu; exact absurd hu (by simp)
  | cons x xs ih =>
    intro u hu
    cases xs with
    | nil =>
      obtain rfl : u = x := by simpa using hu
      exact le_refl _
    | cons y ys =>
      show wq u ≤ wq (x ++ " " ++ joinSp (y :: ys))
      rcases List.mem_cons.mp hu with rfl | hu'
      · exact (hmono u (joinSp (y :: ys))).1
      · exact le_trans (ih hu') (hmono x (joinSp (y :: ys))).2

lemma splitWordsAux_ne_empty :
    ∀ (cs acc : List Char), ∀ x ∈ splitWordsAux cs acc, x ≠ "" := by
  intro cs
  induction cs with
  | nil =>
    intro acc x hx
    unfold splitWordsAux at hx
    by_cases ha : acc = []
    · rw [if_pos ha] at hx
      exact absurd hx (by simp)
    · rw [if_neg ha] at hx
      obtain rfl : x = String.mk acc.reverse := by simpa using hx
      intro hc
      have hr : acc.reverse = [] := by
        have := congrArg String.data hc
        simpa using this
      exact ha (List.reverse_eq_nil_iff.mp hr)
  | cons c cs' ih =>
    intro acc x hx
    unfold splitWordsAux at hx
    by_cases hw : isJsWs c
    · rw [if_pos hw] at hx
      by_cases ha : acc = []
      · rw [if_pos ha] at hx
        exact ih [] x hx
      · rw [if_neg ha] at hx
        rcases List.mem_cons.mp hx with rfl | hx'
        · intro hc
          have hr : acc.reverse = [] := by
            have := congrArg String.data hc
            simpa using this
          exact ha (List.reverse_eq_nil_iff.mp hr)
        · exact ih [] x hx'
    · rw [if_neg hw] at hx
      exact ih (c :: acc) x hx

lemma splitWords_all_ne_empty (s : String) : ∀ x ∈ splitWords s, x ≠ "" :=
  splitWordsAux_ne_empty s.data []

lemma splitLinesAux_no_newline :
    ∀ (cs acc : List Char), (∀ c ∈ cs, c ≠ '\n') →
      splitLinesAux cs acc = [String.mk (acc.reverse ++ cs)] := by
  intro cs
  induction cs with
  | nil => intro acc _; simp [splitLinesAux]
  | cons c cs' ih =>
    intro acc hnl
    unfold splitLinesAux
    rw [if_neg (hnl c (List.mem_cons_self _ _))]
    rw [ih (c :: acc) fun d hd => hnl d (List.mem_cons_of_mem _ hd)]
    simp

lemma splitLines_no_newline {s : String} (h : ∀ c ∈ s.data, c ≠ '\n') :
    splitLines s = [s] := by
  unfold splitLines
  rw [splitLinesAux_no_newline s.data [] h]
  simp

lemma wrapWalk_chunks (wq : String → ℚ) (mw : ℚ)
    (hmono : ∀ a b : String, wq a ≤ wq (a ++ " " ++ b) ∧ wq b ≤ wq (a ++ " " ++ b)) :
    ∀ (words : List String), (∀ x ∈ words, x ≠ "") →
    ∀ (chunks : List (List String)) (cur : List String),
      (∀ c ∈ chunks, c ≠ [] ∧ (wq (joinSp c) ≤ mw ∨ ∃ u, c = [u] ∧ mw < wq u) ∧
        ∀ u ∈ c, mw < wq u → c = [u]) →
      (∀ x ∈ cur, x ≠ "") →
      (cur ≠ [] → (wq (joinSp cur) ≤ mw ∨ ∃ u, cur = [u])) →
      (∀ u ∈ cur, mw < wq u → cur = [u]) →
      ∃ (chunks' : List (List String)) (cur' : List String),
        wrapWalk wq mw (chunks.map joinSp, joinSp cur) words =
          (chunks'.map joinSp, joinSp cur') ∧
        chunks'.join ++ cur' = chunks.join ++ (cur ++ words) ∧
        (∀ c ∈ chunks', c ≠ [] ∧ (wq (joinSp c) ≤ mw ∨ ∃ u, c = [u] ∧ mw < wq u) ∧
          ∀ u ∈ c, mw < wq u → c = [u]) ∧
        (∀ x ∈ cur', x ≠ "") ∧
        (cur' ≠ [] → (wq (joinSp cur') ≤ mw ∨ ∃ u, cur' = [u])) ∧
        (∀ u ∈ cur', mw < wq u → cur' = [u]) := by
  intro words
  induction words with
  | nil =>
    intro _ chunks cur hchunks hcne hcw hcover
    exact ⟨chunks, cur, rfl, by simp, hchunks, hcne, hcw, hcover⟩
  | cons word rest ih =>
    intro hwords chunks cur hchunks hcne hcw hcover
    have hword : word ≠ "" := hwords word (List.mem_cons_self _ _)
    have hrest : ∀ x ∈ rest, x ≠ "" := fun x hx => hwords x (List.mem_cons_of_mem _ hx)
    rw [show wrapWalk wq mw (chunks.map joinSp, joinSp cur) (word :: rest) =
      wrapWalk wq mw (wrapStep wq mw (chunks.map joinSp, joinSp cur) word) rest from rfl]
    by_cases hcurnil : cur = []
    · subst hcurnil
      have hstep : wrapStep wq mw (chunks.map joinSp, joinSp ([] : List String)) word =
          (chunks.map joinSp, joinSp [word]) := by
        simp [wrapStep, joinSp]
      rw [hstep]
      obtain ⟨chunks', cur', heq, hjoin, h1, h2, h3, h4⟩ :=
        ih hrest chunks [word] hchunks (by simpa using hword)
          (fun _ => Or.inr ⟨word, rfl⟩)
          (fun u hu _ => by rw [List.mem_singleton.mp hu])
      exact ⟨chunks', cur', heq, by simpa using hjoin, h1, h2, h3, h4⟩
    · have hjne : joinSp cur ≠ "" := joinSp_ne_empty hcne hcurnil
      have htest : (if joinSp cur = "" then word else joinSp cur ++ " " ++ word) =
          joinSp (cur ++ [word]) := by
        rw [if_neg hjne, joinSp_append_single cur hcurnil]
      by_cases hover : mw < wq (joinSp (cur ++ [word]))
      · have hstep : wrapStep wq mw (chunks.map joinSp, joinSp cur) word =
            ((chunks ++ [cur]).map joinSp, joinSp [word]) := by
          unfold wrapStep
          dsimp only
          rw [htest, if_pos ⟨hover, hjne⟩]
          simp [joinSp]
        rw [hstep]
        have hcurgood : cur ≠ [] ∧ (wq (joinSp cur) ≤ mw ∨ ∃ u, cur = [u] ∧ mw < wq u) ∧
            ∀ u ∈ cur, mw < wq u → cur = [u] := by
          refine ⟨hcurnil, ?_, hcover⟩
          rcases hcw hcurnil with h | ⟨u, rfl⟩
          · exact Or.inl h
          · by_cases hu : mw < wq u
            · exact Or.inr ⟨u, rfl, hu⟩
            · exact Or.inl (by simpa [joinSp] using not_lt.mp hu)
        obtain ⟨chunks', cur', heq, hjoin, h1, h2, h3, h4⟩ :=
          ih hrest (chunks ++ [cur]) [word]
            (by
              intro c hc
              rcases List.mem_append.mp hc with hc | hc
              · exact hchunks c hc
              · rw [List.mem_singleton.mp hc]
                exact hcurgood)
            (by simpa using hword)
            (fun _ => Or.inr ⟨word, rfl⟩)
            (fun u hu _ => by rw [List.mem_singleton.mp hu])
        refine ⟨chunks', cur', heq, ?_, h1, h2, h3, h4⟩
        rw [hjoin]
        simp
      · have hstep : wrapStep wq mw (chunks.map joinSp, joinSp cur) word =
            (chunks.map joinSp, joinSp (cur ++ [word])) := by
          unfold wrapStep
          dsimp only
          rw [htest, if_neg (by rintro ⟨hc1, -⟩; exact hover hc1)]
        rw [hstep]
        have hext1 : ∀ x ∈ cur ++ [word], x ≠ "" := by
          intro x hx
          rcases List.mem_append.mp hx with hx | hx
          · exact hcne x hx
          · rw [List.mem_singleton.mp hx]
            exact hword
        have hext3 : ∀ u ∈ cur ++ [word], mw < wq u → cur ++ [word] = [u] := by
          intro u hu hlt
          exact absurd (le_trans (mem_le_joinSp wq hmono hu) (not_lt.mp hover))
            (not_le.mpr hlt)
        obtain ⟨chunks', cur', heq, hjoin, h1, h2, h3, h4⟩ :=
          ih hrest chunks (cur ++ [word]) hchunks hext1
            (fun _ => Or.inl (not_lt.mp hover)) hext3
        refine ⟨chunks', cur', heq, ?_, h1, h2, h3, h4⟩
        rw [hjoin]
        simp

lemma wrapParagraph_chunks (wq : String → ℚ) (mw : ℚ)
    (hmono : ∀ a b : String, wq a ≤ wq (a ++ " " ++ b) ∧ wq b ≤ wq (a ++ " " ++ b))
    (paragraph : String) (hpne : paragraph ≠ "") :
    ∃ chunks : List (List String),
      wrapParagraph wq mw paragraph = chunks.map joinSp ∧
      chunks.join = splitWords paragraph ∧
      ∀ c ∈ chunks, c ≠ [] ∧ (wq (joinSp c) ≤ mw ∨ ∃ u, c = [u] ∧ mw < wq u) ∧
        ∀ u ∈ c, mw < wq u → c = [u] := by
  obtain ⟨chunks', cur', heq, hjoin, h1, h2, h3, h4⟩ :=
    wrapWalk_chunks wq mw hmono (splitWords paragraph)
      (splitWords_all_ne_empty paragraph) [] []
      (by simp) (by simp) (by simp) (by simp)
  unfold wrapParagraph
  rw [show (([], "") : List String × String) =
    (([] : List (List String)).map joinSp, joinSp ([] : List String)) from rfl]
  rw [heq]
  dsimp only
  by_cases hcur : cur' = []
  · subst hcur
    rw [if_neg (by simp [joinSp, hpne])]
    exact ⟨chunks', rfl, by simpa using hjoin, h1⟩
  · have hne : joinSp cur' ≠ "" := joinSp_ne_empty h2 hcur
    rw [if_pos (Or.inl hne)]
    refine ⟨chunks' ++ [cur'], by simp, ?_, ?_⟩
    · have hja : (chunks' ++ [cur']).join = chunks'.join ++ cur' := by simp
      rw [hja]
      simpa using hjoin
    · intro c hc
      rcases List.mem_append.mp hc with hc | hc
      · exact h1 c hc
      · rw [List.mem_singleton.mp hc]
        refine ⟨hcur, ?_, h4⟩
        rcases h3 hcur with h | ⟨u, rfl⟩
        · exact Or.inl h
        · by_cases hu : mw < wq u
          · exact Or.inr ⟨u, rfl, hu⟩
          · exact Or.inl (by simpa [joinSp] using not_lt.mp hu)

/-- C5: for a positive maximum width, the wrapping loop breaks a
(single-paragraph, nonempty) text only at word boundaries — the
produced lines are exactly the space-joins of a partition of the word
list into consecutive non-empty chunks, so no word is ever split across
two lines — and every line either measures at most the maximum width or
is a single word whose own measured width exceeds it; under a monotone
font measure, an oversized word is always placed alone on its line. -/
theorem wrapText_word_boundaries (wq : String → ℚ) (mw : ℚ) (text : String)
    (hmw : 0 < mw) (hne : text ≠ "")
    (hnl : ∀ c ∈ text.data, c ≠ '\n')
    (hmono : ∀ a b : String, wq a ≤ wq (a ++ " " ++ b) ∧ wq b ≤ wq (a ++ " " ++ b)) :
    ∃ chunks : List (List String),
      wrapText wq text (some mw) = chunks.map joinSp ∧
      chunks.join = splitWords text ∧
      ∀ c ∈ chunks, c ≠ [] ∧
        (wq (joinSp c) ≤ mw ∨ ∃ u, c = [u] ∧ mw < wq u) ∧
        ∀ u ∈ c, mw < wq u → c = [u] := by
  unfold wrapText
  rw [if_neg hne]
  dsimp only
  rw [if_neg (ne_of_gt hmw), splitLines_no_newline hnl]
  exact wrapParagraph_chunks wq mw hmono text hne

/-- C5 witness: wrapping a concrete sentence with the length measure
at width 11. -/
theorem wrapText_word_boundaries_witness :
    ∃ chunks : List (List String),
      wrapText (fun s => (s.length : ℚ)) "hello world this is long" (some 11) =
        chunks.map joinSp ∧
      chunks.join = splitWords "hello world this is long" ∧
      ∀ c ∈ chunks, c ≠ [] ∧
        ((fun s => ((s.length : ℚ))) (joinSp c) ≤ 11 ∨
          ∃ u, c = [u] ∧ 11 < (fun s => ((s.length : ℚ))) u) ∧
        ∀ u ∈ c, 11 < (fun s => ((s.length : ℚ))) u → c = [u] :=
  wrapText_word_boundaries (fun s => (s.length : ℚ)) 11 "hello world this is long"
    (by norm_num) (by decide) (by decide)
    (by
      intro a b
      have h : (a ++ " " ++ b).length = a.length + 1 + b.length := by
        rw [String.length_append, String.length_append]
        rfl
      constructor <;> simp only [] <;> rw [h] <;> norm_cast <;> omega)

end FillForge
